import Mathlib

/-!
Verification of the OpenPMU WaveMU frame-pacing engine (src/WaveMU.py)
against its natural-language specification.

The Python source is shallowly embedded: pure fragments become Lean
functions, the stateful run loop becomes explicit recursion over the
decoded block stream, wall-clock reads become an explicit schedule
parameter, and machine arithmetic is modelled over `Nat`/`Int`/`Rat`
with the concrete values the source's floating-point expressions
evaluate to (the relevant ones are exact: `int(1/0.01) = 100`,
`int(12800*0.01) = 128`, `int(f*0.01*1000) = 10*f` for `0 ≤ f < 100`).
-/

namespace WaveMU

/-- Python `int()` applied to a rational: truncation toward zero. -/
def pyInt (q : ℚ) : ℤ := if 0 ≤ q then ⌊q⌋ else ⌈q⌉

/-- `self.interval = 0.01  # seconds` (WaveMU.py line 52). -/
def interval : ℚ := 1 / 100

/-- `self.Fs = 12800` (line 53). -/
def Fs : ℕ := 12800

/-- The samples-per-frame derivation `int(self.Fs * self.interval)`
(line 54), as a function of the two operands of the product. -/
def derivedN (fs : ℕ) (itv : ℚ) : ℤ := pyInt ((fs : ℚ) * itv)

/-- `self.n = int(self.Fs * self.interval)` (line 54) at the hardcoded
configuration. -/
def n : ℤ := derivedN Fs interval

/-- `self.channels` defaults to 2 (line 47). -/
def defaultChannels : ℕ := 2

/-- `self.bits = 16` (line 56). -/
def bits : ℕ := 16

/-- `self.ADCRange = 2 ** 15 - 1` (line 55). -/
def ADCRange : ℕ := 2 ^ 15 - 1

/-- The wrap modulus of the frame counter: `int(1 / self.interval)`
(line 119).  In the source this is evaluated in IEEE double arithmetic;
`1/0.01` rounds to exactly `100.0`, so the value is 100, which also
equals `round(1/interval)`. -/
def framesPerSecond : ℕ := 100

/-- One step of the frame counter: `frame += 1; if (frame == int(1 /
self.interval)): frame = 0` (lines 118-120). -/
def nextFrame (f : ℕ) : ℕ := if f + 1 = framesPerSecond then 0 else f + 1

/-- The value of `frame` at the top of the `k`-th cycle of `run()`
(`frame = 0` before the loop, line 81; stepped at lines 118-120). -/
def frameSeq : ℕ → ℕ
  | 0 => 0
  | k + 1 => nextFrame (frameSeq k)

/-- Left-pad the decimal representation of `k` with zeros to width `w`
(Python `"%03d"`-style formatting for nonnegative values). -/
def padZ (w : ℕ) (k : ℕ) : String :=
  let s := toString k
  String.mk (List.replicate (w - s.length) '0') ++ s

/-- `now.time().strftime("%H:%M:%S")` for a wall-clock instant given as
whole seconds since midnight. -/
def fmtHMS (secOfDay : ℕ) : String :=
  padZ 2 (secOfDay / 3600 % 24) ++ ":" ++ padZ 2 (secOfDay / 60 % 60)
    ++ ":" ++ padZ 2 (secOfDay % 60)

/-- The millisecond field `"%03d" % (frame * self.interval * 1000)`
(line 96): for every reachable `frame` (0 ≤ frame < 100) the source's
floating-point expression evaluates to exactly `frame * 10`. -/
def msOfFrame (frame : ℕ) : ℕ := frame * 10

/-- The `Time` field assembled at line 96 from the cycle-start clock
read `now` and the frame counter. -/
def timeField (nowSec : ℕ) (frame : ℕ) : String :=
  fmtHMS nowSec ++ "." ++ padZ 3 (msOfFrame frame)

/-- The sequence of `Time` values a run emits, as a function of the
schedule `nowSec` of wall-clock instants (seconds since midnight) at
which the successive cycles start.  Cycle `k` reads the clock afresh
(`now = datetime.now()`, line 95) and formats `timeField`. -/
def timeSeq (nowSec : ℕ → ℕ) (k : ℕ) : String :=
  timeField (nowSec k) (frameSeq k)

/-- The residual-sleep argument: `s = (intervalDelta - (datetime.now() -
now)).total_seconds(); time.sleep(s if s > 0 else 0)` (lines 127-131),
as a function of the frame interval and the elapsed time since the
cycle-start instant. -/
def residualSleep (itv elapsed : ℚ) : ℚ :=
  let s := itv - elapsed
  if s > 0 then s else 0

/-! ## Base64 (`base64.standard_b64encode`, line 41, and the receiver's
standard decoder for the round-trip property) -/

/-- The standard base64 alphabet. -/
def b64Alphabet : List Char :=
  "ABCDEFGHIJKLMNOPQRSTUVWXYZabcdefghijklmnopqrstuvwxyz0123456789+/".toList

/-- The base64 digit for a 6-bit value. -/
def b64Char (k : ℕ) : Char := b64Alphabet.getD k 'A'

/-- `base64.standard_b64encode` over a byte sequence (each element
`< 256`): groups of three bytes become four base64 digits, with `=`
padding for a final group of one or two bytes. -/
def b64encodeList : List ℕ → List Char
  | [] => []
  | [a] => [b64Char (a / 4), b64Char (a % 4 * 16), '=', '=']
  | [a, b] => [b64Char (a / 4), b64Char (a % 4 * 16 + b / 16), b64Char (b % 16 * 4), '=']
  | a :: b :: c :: rest =>
      b64Char (a / 4) :: b64Char (a % 4 * 16 + b / 16) ::
        b64Char (b % 16 * 4 + c / 64) :: b64Char (c % 64) :: b64encodeList rest

/-- The base64 text assigned to a `Payload` node. -/
def b64encode (bs : List ℕ) : String := String.mk (b64encodeList bs)

/-- The 6-bit value of a base64 digit. -/
def b64CharVal (ch : Char) : ℕ := b64Alphabet.indexOf ch

/-- A standard base64 decoder (the receiver side of the round-trip
property): four digits yield three bytes, `=`-padded tails yield one or
two. -/
def b64decodeList : List Char → List ℕ
  | c1 :: c2 :: c3 :: c4 :: rest =>
      if c3 = '=' ∧ c4 = '=' ∧ rest = [] then
        [b64CharVal c1 * 4 + b64CharVal c2 / 16]
      else if c4 = '=' ∧ rest = [] then
        [b64CharVal c1 * 4 + b64CharVal c2 / 16,
         b64CharVal c2 % 16 * 16 + b64CharVal c3 / 4]
      else
        (b64CharVal c1 * 4 + b64CharVal c2 / 16) ::
          (b64CharVal c2 % 16 * 16 + b64CharVal c3 / 4) ::
          (b64CharVal c3 % 4 * 64 + b64CharVal c4) :: b64decodeList rest
  | _ => []

/-- Base64-decode a string. -/
def b64decode (s : String) : List ℕ := b64decodeList s.toList

/-! ## Sample bytes -/

/-- The two-byte big-endian encoding of one signed 16-bit sample, i.e.
the memory of one element of the generator's `.byteswap()`ed `int16`
array (line 164): the two's-complement 16-bit value, high byte first. -/
def int16BE (z : ℤ) : List ℕ :=
  let u := (z % 65536).toNat
  [u / 256, u % 256]

/-- The raw byte buffer of one channel's sample row after
`.byteswap()`: the big-endian two-byte encodings in sample order.  This
is the buffer `base64.standard_b64encode` reads at line 149. -/
def bigEndianBytes (samples : List ℤ) : List ℕ := (samples.map int16BE).flatten

/-! ## The XML template and the frame dictionary -/

/-- A level-2 node of the template (a child of a `Channel_i` block),
e.g. `Payload`. -/
structure Elem2 where
  tag : String
  text : Option String
deriving DecidableEq

/-- A level-1 node of the template (a direct child of the root). -/
structure Elem1 where
  tag : String
  text : Option String
  children : List Elem2
deriving DecidableEq

/-- The parsed template document `self.xmlTemplate` (line 62): a root
element and its level-1 children. -/
structure XMLTree where
  rootTag : String
  level1 : List Elem1
deriving DecidableEq

/-- A value of `resultDict`: an integer, a string, or a `Channel_i`
sub-dictionary holding the channel's raw payload byte buffer under the
key `Payload` (lines 74-78, 96-98, 106-109 build exactly these three
shapes). -/
inductive Entry where
  | num (k : ℕ)
  | txt (s : String)
  | chan (payload : List ℕ)
deriving DecidableEq

/-- The per-cycle frame record, i.e. the contents of `resultDict` when
`toXML` is called at line 111. -/
structure FrameRec where
  fsVal : ℕ
  nVal : ℕ
  channelsVal : ℕ
  bitsVal : ℕ
  timeVal : String
  dateVal : String
  frameVal : ℕ
  payloads : List (List ℕ)
deriving DecidableEq

/-- `resultDict` as an association list in insertion order: the four
static fields (lines 75-78), the per-cycle `Time`/`Date`/`Frame`
(lines 96-98), and one `Channel_%d` sub-dictionary per configured
channel (lines 106-109). -/
def FrameRec.dict (f : FrameRec) : List (String × Entry) :=
  [("Fs", .num f.fsVal), ("n", .num f.nVal), ("Channels", .num f.channelsVal),
   ("bits", .num f.bitsVal), ("Time", .txt f.timeVal), ("Date", .txt f.dateVal),
   ("Frame", .num f.frameVal)]
    ++ f.payloads.enum.map fun p => ("Channel_" ++ toString p.1, Entry.chan p.2)

/-- Dictionary lookup (`tag1 in resultDict.keys()` followed by
`resultDict[tag1]`, lines 143/149/152). -/
def dictLookup : List (String × Entry) → String → Option Entry
  | [], _ => none
  | (k, v) :: rest, tag => if k = tag then some v else dictLookup rest tag

/-- `tag1.startswith("Channel_")` (line 144): the first eight characters
are `Channel_`. -/
def isChannelTag (s : String) : Bool := s.toList.take 8 = "Channel_".toList

/-- The conversion table `dictTypeConvert` (lines 37-43) applied to a
top-level entry, yielding the text assigned at line 152: the keys
`Frame`, `Fs`, `n`, `Channels`, `bits` map to `str`, every other key
falls to the identity default.  In every record `run()` builds
(`FrameRec.dict`) the `num` entries sit exactly at the five
`str`-converted keys and the identity keys hold strings, and a `chan`
entry never reaches line 152 at all (its keys start with `Channel_`, so
line 144 diverts them); the remaining combinations below are
unreachable and the corresponding Python would fail on the lxml text
assignment rather than produce a document. -/
def convertTop (tag : String) (e : Entry) : String :=
  if tag = "Frame" ∨ tag = "Fs" ∨ tag = "n" ∨ tag = "Channels" ∨ tag = "bits" then
    match e with
    | .num k => toString k
    | .txt s => s
    | .chan _ => ""
  else
    match e with
    | .num k => toString k
    | .txt s => s
    | .chan _ => ""

/-- The sub-dictionary lookup `tag2 in resultDict[tag1].keys()`
(line 147): a channel sub-dictionary holds exactly the key `Payload`
(line 109). -/
def chanSub (payload : List ℕ) (tag2 : String) : Option (List ℕ) :=
  if tag2 = "Payload" then some payload else none

/-- One level-2 child under a matched `Channel_i` block (lines
145-149): when the sub-dictionary has the child's tag, its text is set
to the converted value — `dictTypeConvert("Payload")` is
`base64.standard_b64encode` — otherwise the child is left untouched. -/
def processChild (payload : List ℕ) (e2 : Elem2) : Elem2 :=
  match chanSub payload e2.tag with
  | none => e2
  | some p => { e2 with text := some (b64encode p) }

/-- One level-1 template node under `toXML`'s loop (lines 141-154):
a tag absent from the record is removed (`level0.remove(level1)`,
line 154, modelled by `none`); a `Channel_`-prefixed tag has its
children's texts set from the sub-dictionary; any other present tag has
its own text set to the converted value.  The wildcard under a
`Channel_` tag is unreachable from `FrameRec.dict`, whose
`Channel_`-prefixed keys always hold `chan` entries. -/
def processLevel1 (d : List (String × Entry)) (e1 : Elem1) : Option Elem1 :=
  match dictLookup d e1.tag with
  | none => none
  | some entry =>
      if isChannelTag e1.tag then
        match entry with
        | .chan payload => some { e1 with children := e1.children.map (processChild payload) }
        | _ => some e1
      else
        some { e1 with text := some (convertTop e1.tag entry) }

/-- `toXML` (lines 137-158): walk the template's level-1 children in
template order, mutating the tree in place; the function returns the
mutated tree, which is simultaneously the document that
`etree.tostring` serializes (line 157) and the state of
`self.xmlTemplate` seen by the next cycle. -/
def toXML (tpl : XMLTree) (d : List (String × Entry)) : XMLTree :=
  { tpl with level1 := tpl.level1.filterMap (processLevel1 d) }

/-- `etree.tostring` of a level-2 node. -/
def serializeE2 (e : Elem2) : String :=
  match e.text with
  | none => "<" ++ e.tag ++ "/>"
  | some t => "<" ++ e.tag ++ ">" ++ t ++ "</" ++ e.tag ++ ">"

/-- `etree.tostring` of a level-1 node. -/
def serializeE1 (e : Elem1) : String :=
  match e.text, e.children with
  | none, [] => "<" ++ e.tag ++ "/>"
  | t, cs =>
      "<" ++ e.tag ++ ">" ++ t.getD "" ++ String.join (cs.map serializeE2)
        ++ "</" ++ e.tag ++ ">"

/-- `etree.tostring(level0, encoding="utf-8")` (line 157): the emitted
datagram bytes, as a function of the (mutated) document tree. -/
def serialize (t : XMLTree) : String :=
  "<" ++ t.rootTag ++ ">" ++ String.join (t.level1.map serializeE1)
    ++ "</" ++ t.rootTag ++ ">"

/-! ## The sample source (`readWaveFileGen`, lines 161-164) -/

/-- Fuel-indexed chunking; the fuel is an upper bound on the number of
remaining elements and each step consumes at least one, so
`sfChunksAux l.length l` splits `l` completely. -/
def sfChunksAux : ℕ → List α → List (List α)
  | 0, _ => []
  | _, [] => []
  | fuel + 1, l => l.take 128 :: sfChunksAux fuel (l.drop 128)

/-- Model of the external decoder call `sf.blocks(waveFilePath,
blocksize=128, overlap=0, dtype='int16')` (line 163): `audio` is the
decoded stream as a list of per-sample-instant rows of channel values.
With the library's default `fill_value=None` (the source passes no
`fill_value`), the iterator yields consecutive blocks of 128 rows and,
when 1 to 127 rows remain at the end, a final smaller block — the tail
is neither padded nor dropped. -/
def sfBlocks (audio : List (List ℤ)) : List (List (List ℤ)) :=
  sfChunksAux audio.length audio

/-- `block.T` for a block of sample rows: row `i` of the transpose is
channel `i`'s samples in order; `fileChannels` is the decoded file's
channel count (the first axis length after transposing). -/
def transposeBlock (fileChannels : ℕ) (block : List (List ℤ)) : List (List ℤ) :=
  (List.range fileChannels).map fun i => block.map fun row => row.getD i 0

/-- `readWaveFileGen` (lines 161-164): for each decoded block, yield
the transposed, `.byteswap()`ed `int16` array.  The yielded item is
modelled at the level of what the cycle consumes from it: the raw
per-channel byte buffer, which after the byte swap holds the big-endian
two-byte encodings of that channel's samples.  The model presents every
block as a 2-D channels-by-samples array; this is faithful only for
multichannel files (`2 ≤ fileChannels`): for a mono file `sf.blocks`
(with its default `always_2d=False`) yields 1-D blocks, on which the
cycle body's `payload[i, :]` (line 109) raises an uncaught
`IndexError` — an error path this embedding does not represent, so
theorems about graceful termination carry a `2 ≤ fileChannels`
hypothesis. -/
def readWaveFileGen (fileChannels : ℕ) (audio : List (List ℤ)) :
    List (List (List ℕ)) :=
  (sfBlocks audio).map fun block => (transposeBlock fileChannels block).map bigEndianBytes

/-! ## The run loop (`run`, lines 66-131) -/

/-- What the generator does after its last yielded block: `sf.blocks`
raises `StopIteration` on exhaustion, and any mid-stream decode or I/O
failure raises some other exception.  The bare `except:` at line 102
receives either. -/
inductive GenEnd where
  | stopIteration
  | exc (msg : String)
deriving DecidableEq

/-- The wall-clock schedule of a run: the instant `now =
datetime.now()` read at the start of cycle `k` (line 95), split into
whole seconds since midnight (for `%H:%M:%S`) and the formatted date
string.  Making the schedule a parameter models jitter: two runs that
differ only in delays inside the cycle differ only in this schedule. -/
structure Sched where
  nowSec : ℕ → ℕ
  nowDate : ℕ → String

/-- The observable outcome of `run()`: the datagrams sent in order
(destination, bytes), the number of frames emitted, the final
`self.stopThread` flag, and whether `run()` returned normally (without
propagating an exception). -/
structure RunResult where
  sends : List ((String × ℕ) × String)
  frames : ℕ
  stopThread : Bool
  normalReturn : Bool
deriving DecidableEq

/-- The `resultDict` assembled in cycle `cy` (lines 95-109): the static
fields, the `Time`/`Date`/`Frame` fields from the fresh clock read and
the frame counter, and `Channel_%d -> {Payload: payload[i, :]}` for
each configured channel, `blk` being the generator's yielded item
(per-channel byte buffers).  `blk.getD i []` is faithful to
`payload[i, :]` only while `i` indexes an existing row
(`channels ≤ fileChannels`): in Python a missing row raises
`IndexError` at line 109, outside the `try` of line 100, so theorems
about graceful termination carry a `channels ≤ fileChannels`
hypothesis. -/
def mkFrameRec (channels : ℕ) (nowS : ℕ) (nowD : String) (frame : ℕ)
    (blk : List (List ℕ)) : FrameRec :=
  { fsVal := Fs, nVal := 128, channelsVal := channels, bitsVal := bits,
    timeVal := timeField nowS frame, dateVal := nowD, frameVal := frame,
    payloads := (List.range channels).map fun i => blk.getD i [] }

/-- The `while not self.stopThread:` loop (lines 94-131), with no
external `stop()` call: one cycle per generator item — build the
record, encode against the current template state (`toXML` both yields
the document and leaves the mutated tree as the next cycle's template),
send the same bytes to the primary destination and then to the local
relay (lines 113-114), and step the frame counter.  When the generator
is exhausted (or raises any other exception), the bare `except:` at
line 102 runs `self.stop(); break`, so the loop ends with
`stopThread = True` and `run()` returns normally. -/
def runLoop (channels : ℕ) (ip : String) (port : ℕ) (sched : Sched) :
    List (List (List ℕ)) → GenEnd → XMLTree → ℕ → ℕ → RunResult
  | [], _, _, _, _ => ⟨[], 0, true, true⟩
  | blk :: rest, e, tpl, fr, cy =>
      let f := mkFrameRec channels (sched.nowSec cy) (sched.nowDate cy) fr blk
      let doc := toXML tpl f.dict
      let xml := serialize doc
      let r := runLoop channels ip port sched rest e doc (nextFrame fr) (cy + 1)
      ⟨((ip, port), xml) :: (("127.0.0.1", 48005), xml) :: r.sends,
        r.frames + 1, r.stopThread, r.normalReturn⟩

/-- `run()` (lines 66-131) over a decoded audio stream: after the
second-boundary synchronization, iterate the cycle over the blocks of
`readWaveFileGen` until the generator signals `cause`. -/
def run (channels : ℕ) (ip : String) (port : ℕ) (sched : Sched) (tpl : XMLTree)
    (fileChannels : ℕ) (audio : List (List ℤ)) (cause : GenEnd) : RunResult :=
  runLoop channels ip port sched (readWaveFileGen fileChannels audio) cause tpl 0 0

/-! ## The schema template -/

/-- Modelled from the spec: the schema file `OpenPMU_SV.xml` loaded at
line 62 belongs to this repository but is not under `src/`.  Spec
section 6 declares the wire-format field set in schema order — `Frame`,
`Time`, `Date`, `Fs`, `n`, `Channels`, `bits`, and one `Channel_<i>`
block per channel containing a `Payload` field — and section 8's
omission scenario has the template declare channel blocks beyond the
active range (`Channel_5` with `channels=2`), so the template is taken
to declare `Channel_0` through `Channel_5`. -/
def openPMU_SV : XMLTree :=
  { rootTag := "OpenPMU",
    level1 :=
      [⟨"Frame", none, []⟩, ⟨"Time", none, []⟩, ⟨"Date", none, []⟩,
       ⟨"Fs", none, []⟩, ⟨"n", none, []⟩, ⟨"Channels", none, []⟩,
       ⟨"bits", none, []⟩]
        ++ (List.range 6).map fun i =>
            ⟨"Channel_" ++ toString i, none, [⟨"Payload", none⟩]⟩ }

/-- Find a level-1 node by tag (what a receiver's parser does to read a
field of the emitted document). -/
def findTag (t : XMLTree) (tag : String) : Option Elem1 :=
  t.level1.find? fun e => e.tag = tag

/-- Find a level-2 node by tag inside a level-1 node. -/
def findSub (e : Elem1) (tag : String) : Option Elem2 :=
  e.children.find? fun c => c.tag = tag

/-! ## The frame counter -/

/-- The frame counter visits `0, 1, …, 99` cyclically: its value at the
top of cycle `k` is `k mod 100`. -/
theorem frameSeq_mod (k : ℕ) : frameSeq k = k % 100 := by
  induction k with
  | zero => rfl
  | succ k ih =>
      simp only [frameSeq, nextFrame, ih, framesPerSecond]
      split_ifs with h <;> omega

/-- C4: For every run, the sequence of `Frame` values emitted is
`0, 1, 2, …, round(1/interval) - 1, 0, 1, …`: the counter increments by
exactly 1 each cycle, never skips or repeats, and resets to 0 exactly
when it reaches `round(1/interval)` — the counter at cycle `k` is
`k mod framesPerSecond`, and the wrap modulus `int(1/interval)` the
code uses equals `round(1/interval) = 100`. -/
theorem frame_counter_cycles_mod_100 :
    (∀ k, frameSeq k = k % framesPerSecond) ∧ framesPerSecond = 100 :=
  ⟨fun k => frameSeq_mod k, rfl⟩

/-! ## The Time field -/

/-- C1 (counterexample): the emitted `Time` values are not independent
of wall-clock jitter during the cycles.  Two runs from the same
synchronization instant (both start cycle 0 at second 0) and the same
interval, the second with an artificial two-second delay inside each
cycle, disagree on the `Time` value of cycle 1 (`"00:00:00.010"`
against `"00:00:02.010"`): line 96 re-reads the wall clock
(`now.time().strftime("%H:%M:%S")`) instead of deriving the whole
timestamp from the frame counter. -/
theorem time_sequence_depends_on_clock_schedule :
    timeSeq (fun _ => 0) 1 ≠ timeSeq (fun k => 2 * k) 1 := by decide

/-- C1 (amended): only the millisecond field of `Time` is derived by
arithmetic from the frame counter — at cycle `k` it is
`frame * interval * 1000 = (k mod 100) * 10` milliseconds, an
arithmetic progression with step `interval` within each counter wrap,
identical across all wall-clock schedules — while the `HH:MM:SS` prefix
is re-sampled from the clock at each cycle start, so the full `Time`
value does depend on the schedule. -/
theorem time_field_splits_clock_prefix_frame_ms (nowSec : ℕ → ℕ) (k : ℕ) :
    timeSeq nowSec k = fmtHMS (nowSec k) ++ "." ++ padZ 3 (k % 100 * 10) := by
  simp [timeSeq, timeField, msOfFrame, frameSeq_mod]

/-! ## The samples-per-frame derivation -/

/-- C3 (counterexample): the derivation `int(self.Fs * self.interval)`
(line 54) applied to a non-integral product — `Fs = 12800`,
`interval = 3/1000`, product `38.4` — silently produces the truncated
`n = 38` instead of failing: the constructor contains no integrality
check and no failure path. -/
theorem derivedN_truncates_nonintegral :
    derivedN 12800 (3 / 1000) = 38 ∧ ¬ ((38 : ℚ) = (12800 : ℚ) * (3 / 1000)) := by
  constructor
  · rw [derivedN, pyInt, if_pos (by norm_num)]
    norm_num
  · norm_num

/-- C3 (amended): for the one constructible stream configuration
(`Fs = 12800`, `interval = 0.01` are hardcoded), the derived
samples-per-frame satisfies `n = Fs * interval = 128` exactly as a
positive integer; but the derivation truncates via `int()` and a
non-integral product would be silently truncated, not rejected. -/
theorem n_exact_for_configured_stream :
    n = 128 ∧ (Fs : ℚ) * interval = (128 : ℚ) ∧ 0 < n := by
  refine ⟨?_, by norm_num [Fs, interval], ?_⟩ <;>
    rw [n, derivedN, pyInt, if_pos (by norm_num [Fs, interval])] <;>
    norm_num [Fs, interval]

/-! ## Residual sleep -/

/-- C8: at the end of every cycle the engine sleeps
`interval - elapsed` when that residual is positive and zero otherwise:
the argument passed to the sleep primitive is `max (interval - elapsed) 0`,
hence never negative, and an overrun (negative residual) is absorbed as
a zero sleep rather than raised. -/
theorem residual_sleep_clamped (itv elapsed : ℚ) :
    residualSleep itv elapsed = max (itv - elapsed) 0 ∧
      0 ≤ residualSleep itv elapsed := by
  rw [residualSleep]
  constructor
  · split_ifs with h
    · exact (max_eq_left h.le).symm
    · exact (max_eq_right (not_lt.mp h)).symm
  · split_ifs with h
    · exact h.le
    · exact le_refl 0

/-! ## Run-loop helpers -/

/-- The loop runs one cycle per generator item. -/
theorem runLoop_frames (channels : ℕ) (ip : String) (port : ℕ) (sched : Sched)
    (blocks : List (List (List ℕ))) (e : GenEnd) (tpl : XMLTree) (fr cy : ℕ) :
    (runLoop channels ip port sched blocks e tpl fr cy).frames = blocks.length := by
  induction blocks generalizing tpl fr cy with
  | nil => rfl
  | cons b rest ih => simp [runLoop, ih]

/-- Every run ends with the stop flag set by the `except:` handler and
a normal return from `run()`. -/
theorem runLoop_flags (channels : ℕ) (ip : String) (port : ℕ) (sched : Sched)
    (blocks : List (List (List ℕ))) (e : GenEnd) (tpl : XMLTree) (fr cy : ℕ) :
    (runLoop channels ip port sched blocks e tpl fr cy).stopThread = true ∧
      (runLoop channels ip port sched blocks e tpl fr cy).normalReturn = true := by
  induction blocks generalizing tpl fr cy with
  | nil => exact ⟨rfl, rfl⟩
  | cons b rest ih => simpa [runLoop] using ih _ _ _

/-- The loop's observable outcome does not depend on which exception
ends the generator: the bare `except:` (line 102) treats them alike. -/
theorem runLoop_cause_irrelevant (channels : ℕ) (ip : String) (port : ℕ) (sched : Sched)
    (blocks : List (List (List ℕ))) (e e' : GenEnd) (tpl : XMLTree) (fr cy : ℕ) :
    runLoop channels ip port sched blocks e tpl fr cy =
      runLoop channels ip port sched blocks e' tpl fr cy := by
  induction blocks generalizing tpl fr cy with
  | nil => rfl
  | cons b rest ih => simp [runLoop, ih]

/-- `sfChunksAux` with sufficient fuel produces `⌈length/128⌉` blocks. -/
theorem sfChunksAux_length {α : Type} (fuel : ℕ) :
    ∀ l : List α, l.length ≤ fuel →
      (sfChunksAux fuel l).length = (l.length + 127) / 128 := by
  induction fuel with
  | zero =>
      intro l h
      have : l = [] := List.eq_nil_of_length_eq_zero (Nat.le_zero.mp h)
      subst this
      simp [sfChunksAux]
  | succ fuel ih =>
      intro l h
      cases l with
      | nil => simp [sfChunksAux]
      | cons x xs =>
          simp only [sfChunksAux]
          rw [List.length_cons]
          rw [ih _ (by simp [List.length_drop] at *; omega)]
          simp [List.length_drop]
          omega

/-- A run over a decoded stream of `L` sample rows emits `⌈L/128⌉`
frames: one per full 128-row block, plus one for a partial tail. -/
theorem run_frames (channels : ℕ) (ip : String) (port : ℕ) (sched : Sched)
    (tpl : XMLTree) (fileChannels : ℕ) (audio : List (List ℤ)) (cause : GenEnd) :
    (run channels ip port sched tpl fileChannels audio cause).frames =
      (audio.length + 127) / 128 := by
  rw [run, runLoop_frames, readWaveFileGen, List.length_map, sfBlocks,
    sfChunksAux_length _ _ (le_refl _)]

/-- In every cycle the primary datagram and the relay datagram carry
the same bytes, and there is exactly one pair per frame. -/
theorem runLoop_sends_split (channels : ℕ) (ip : String) (port : ℕ) (sched : Sched)
    (blocks : List (List (List ℕ))) (e : GenEnd) (tpl : XMLTree) (fr cy : ℕ)
    (h : (ip, port) ≠ ("127.0.0.1", 48005)) :
    (((runLoop channels ip port sched blocks e tpl fr cy).sends.filter
        fun s => s.1 = (ip, port)).map Prod.snd) =
      (((runLoop channels ip port sched blocks e tpl fr cy).sends.filter
        fun s => s.1 = ("127.0.0.1", 48005)).map Prod.snd) ∧
    ((runLoop channels ip port sched blocks e tpl fr cy).sends.filter
        fun s => s.1 = (ip, port)).length =
      (runLoop channels ip port sched blocks e tpl fr cy).frames := by
  induction blocks generalizing tpl fr cy with
  | nil => simp [runLoop]
  | cons b rest ih =>
      have hne : ¬ (("127.0.0.1", 48005) = (ip, port)) := fun hh => h hh.symm
      simp only [runLoop, List.filter_cons, List.map_cons]
      simp [h, hne, (ih _ _ _).1, (ih _ _ _).2]

/-! ## End of stream (C5) -/

/-- C5 (counterexample): a two-channel decoded stream of 130 sample
rows — exactly `k = 1` full block of 128 samples per channel plus a
partial final block of 2 — produces 2 emitted frames, not 1: the
source's `sf.blocks(..., fill_value=None)` yields the partial tail as a
smaller final block and the cycle encodes and sends it like any other.
The input is a well-formed stereo stream (each row two channel values,
configured `channels = 2 = fileChannels`), so the cycle body is on its
crash-free path. -/
theorem partial_final_block_emitted :
    (run 2 "10.0.0.1" 48001 ⟨fun _ => 0, fun _ => "2021-01-01"⟩ openPMU_SV 2
        (List.replicate 130 [0, 0]) .stopIteration).frames = 2 ∧
      (List.replicate 130 ([0, 0] : List ℤ)).length = 128 * 1 + 2 ∧
      ∀ row ∈ List.replicate 130 ([0, 0] : List ℤ), row.length = 2 := by
  refine ⟨?_, by simp, ?_⟩
  · rw [run_frames]
    simp
  · intro row hr
    rw [List.eq_of_mem_replicate hr]
    rfl

/-- C5 (amended): for a multichannel decoded file (`2 ≤ fileChannels`,
so `sf.blocks` yields 2-D blocks), configured channels within the
file's channel count (`channels ≤ fileChannels`, so `payload[i, :]`
never raises) and well-formed sample rows: given an input whose
decoded stream contains exactly `k` full blocks of `n = 128` samples
per channel and no partial remainder, exactly `k` frames are emitted
and the engine stops as normal termination (stop flag set, `run()`
returning normally, no error).  A final partial block, however, is
emitted as an additional short frame rather than treated as stream
exhaustion; and a mono input file is outside this domain — there the
real program dies on an uncaught `IndexError` at line 109 rather than
stopping normally. -/
theorem full_blocks_emit_exactly_k_frames (channels : ℕ) (ip : String) (port : ℕ)
    (sched : Sched) (tpl : XMLTree) (fileChannels : ℕ) (audio : List (List ℤ))
    (cause : GenEnd) (k : ℕ) (h : audio.length = 128 * k)
    (_hrows : ∀ row ∈ audio, row.length = fileChannels)
    (_hmulti : 2 ≤ fileChannels) (_hch : channels ≤ fileChannels) :
    (run channels ip port sched tpl fileChannels audio cause).frames = k ∧
      (run channels ip port sched tpl fileChannels audio cause).stopThread = true ∧
      (run channels ip port sched tpl fileChannels audio cause).normalReturn = true := by
  refine ⟨?_, runLoop_flags _ _ _ _ _ _ _ _ _⟩
  rw [run_frames, h]
  omega

/-- C5 (witness): a two-channel stream of exactly one full block. -/
theorem full_blocks_emit_exactly_k_frames_witness :
    (List.replicate 128 ([0, 0] : List ℤ)).length = 128 * 1 ∧
      (∀ row ∈ List.replicate 128 ([0, 0] : List ℤ), row.length = 2) ∧
      2 ≤ 2 ∧
      ((run 2 "10.0.0.1" 48001 ⟨fun _ => 0, fun _ => "2021-01-01"⟩ openPMU_SV 2
          (List.replicate 128 [0, 0]) .stopIteration).frames = 1 ∧
        (run 2 "10.0.0.1" 48001 ⟨fun _ => 0, fun _ => "2021-01-01"⟩ openPMU_SV 2
          (List.replicate 128 [0, 0]) .stopIteration).stopThread = true ∧
        (run 2 "10.0.0.1" 48001 ⟨fun _ => 0, fun _ => "2021-01-01"⟩ openPMU_SV 2
          (List.replicate 128 [0, 0]) .stopIteration).normalReturn = true) :=
  ⟨by simp, fun row hr => by rw [List.eq_of_mem_replicate hr]; rfl, le_refl 2,
    full_blocks_emit_exactly_k_frames 2 "10.0.0.1" 48001
      ⟨fun _ => 0, fun _ => "2021-01-01"⟩ openPMU_SV 2 (List.replicate 128 [0, 0])
      .stopIteration 1 (by simp)
      (fun row hr => by rw [List.eq_of_mem_replicate hr]; rfl) (le_refl 2) (le_refl 2)⟩

/-! ## Dual-destination transmission (C9) -/

/-- C9: in every cycle the byte sequence sent to the configured primary
destination `(ip, port)` is identical to the byte sequence sent to the
fixed local relay `("127.0.0.1", 48005)`: over a whole run, the
sequence of datagram payloads addressed to the primary equals, datagram
for datagram, the sequence addressed to the relay, and there is exactly
one primary datagram per emitted frame. -/
theorem dual_destinations_same_bytes (channels : ℕ) (ip : String) (port : ℕ)
    (sched : Sched) (tpl : XMLTree) (fileChannels : ℕ) (audio : List (List ℤ))
    (cause : GenEnd) (h : (ip, port) ≠ ("127.0.0.1", 48005)) :
    (((run channels ip port sched tpl fileChannels audio cause).sends.filter
        fun s => s.1 = (ip, port)).map Prod.snd) =
      (((run channels ip port sched tpl fileChannels audio cause).sends.filter
        fun s => s.1 = ("127.0.0.1", 48005)).map Prod.snd) ∧
    ((run channels ip port sched tpl fileChannels audio cause).sends.filter
        fun s => s.1 = (ip, port)).length =
      (run channels ip port sched tpl fileChannels audio cause).frames :=
  runLoop_sends_split channels ip port sched _ cause tpl 0 0 h

/-- C9 (witness): the default primary destination and a one-sample
one-channel stream. -/
theorem dual_destinations_same_bytes_witness :
    (("127.0.0.1", 48001) ≠ (("127.0.0.1", 48005) : String × ℕ)) ∧
      ((((run 1 "127.0.0.1" 48001 ⟨fun _ => 0, fun _ => "2021-01-01"⟩ openPMU_SV 1
            [[5]] .stopIteration).sends.filter
            fun s => s.1 = ("127.0.0.1", 48001)).map Prod.snd) =
          (((run 1 "127.0.0.1" 48001 ⟨fun _ => 0, fun _ => "2021-01-01"⟩ openPMU_SV 1
            [[5]] .stopIteration).sends.filter
            fun s => s.1 = ("127.0.0.1", 48005)).map Prod.snd) ∧
        ((run 1 "127.0.0.1" 48001 ⟨fun _ => 0, fun _ => "2021-01-01"⟩ openPMU_SV 1
            [[5]] .stopIteration).sends.filter
            fun s => s.1 = ("127.0.0.1", 48001)).length =
          (run 1 "127.0.0.1" 48001 ⟨fun _ => 0, fun _ => "2021-01-01"⟩ openPMU_SV 1
            [[5]] .stopIteration).frames) :=
  ⟨by decide,
    dual_destinations_same_bytes 1 "127.0.0.1" 48001
      ⟨fun _ => 0, fun _ => "2021-01-01"⟩ openPMU_SV 1 [[5]] .stopIteration
      (by decide)⟩

/-! ## Uniform exception handling (C10) -/

/-- C10: any exception raised while pulling the next sample block — a
mid-stream decode or I/O failure just as much as stream exhaustion — is
caught by the cycle's bare `except:` handler, sets the stop flag, and
makes `run()` return normally: the entire observable outcome of a run
whose generator ends with an arbitrary exception equals that of a run
whose generator ends with normal exhaustion, and both end stopped and
without a propagated error. -/
theorem generator_errors_indistinguishable (channels : ℕ) (ip : String) (port : ℕ)
    (sched : Sched) (tpl : XMLTree) (fileChannels : ℕ) (audio : List (List ℤ))
    (msg : String) :
    run channels ip port sched tpl fileChannels audio (.exc msg) =
        run channels ip port sched tpl fileChannels audio .stopIteration ∧
      (run channels ip port sched tpl fileChannels audio (.exc msg)).stopThread = true ∧
      (run channels ip port sched tpl fileChannels audio (.exc msg)).normalReturn = true :=
  ⟨runLoop_cause_irrelevant channels ip port sched _ _ _ tpl 0 0,
    runLoop_flags channels ip port sched _ _ tpl 0 0⟩

/-! ## Dictionary lookup facts -/

/-- Two dictionaries with the same keys fail lookup at the same tags. -/
theorem dictLookup_none_iff_of_same_keys :
    ∀ (d1 d2 : List (String × Entry)), d1.map Prod.fst = d2.map Prod.fst →
      ∀ tag, (dictLookup d1 tag = none ↔ dictLookup d2 tag = none)
  | [], [], _, tag => by simp
  | (k1, v1) :: r1, (k2, v2) :: r2, h, tag => by
      simp only [List.map_cons, List.cons.injEq] at h
      obtain ⟨hk, hr⟩ := h
      subst hk
      simp only [dictLookup]
      split_ifs with hkt
      · simp
      · exact dictLookup_none_iff_of_same_keys r1 r2 hr tag
  | [], (k2, v2) :: r2, h, tag => by simp at h
  | (k1, v1) :: r1, [], h, tag => by simp at h

/-- The key set of a frame record's dictionary depends only on its
channel count. -/
theorem dict_keys_of_length (f g : FrameRec) (h : f.payloads.length = g.payloads.length) :
    (FrameRec.dict f).map Prod.fst = (FrameRec.dict g).map Prod.fst := by
  have key : ∀ pl : List (List ℕ),
      ((pl.enum.map fun p => ("Channel_" ++ toString p.1, Entry.chan p.2)).map Prod.fst) =
        (List.range pl.length).map fun i => "Channel_" ++ toString i := by
    intro pl
    rw [List.map_map]
    have hcomp : (Prod.fst ∘ fun p : ℕ × List ℕ =>
        ("Channel_" ++ toString p.1, Entry.chan p.2)) =
        (fun i => "Channel_" ++ toString i) ∘ Prod.fst := rfl
    rw [hcomp, ← List.map_map, List.enum_map_fst]
  simp only [FrameRec.dict, List.map_append, key, h]
  rfl

/-- Lookup over an appended dictionary tries the left part first. -/
theorem dictLookup_append (l1 l2 : List (String × Entry)) (tag : String) :
    dictLookup (l1 ++ l2) tag =
      match dictLookup l1 tag with
      | some v => some v
      | none => dictLookup l2 tag := by
  induction l1 with
  | nil => simp [dictLookup]
  | cons kv rest ih =>
      obtain ⟨k, v⟩ := kv
      by_cases hk : k = tag
      · simp [dictLookup, hk]
      · simp only [List.cons_append, dictLookup, if_neg hk]
        exact ih

/-- A successful lookup in a dictionary of `chan` entries yields a
`chan` entry. -/
theorem dictLookup_all_chan :
    ∀ (l : List (String × Entry)) (tag : String) (e : Entry),
      (∀ x ∈ l, ∃ p, x.2 = Entry.chan p) → dictLookup l tag = some e →
        ∃ p, e = Entry.chan p
  | [], tag, e, _, h => by simp [dictLookup] at h
  | (k, v) :: rest, tag, e, hall, h => by
      simp only [dictLookup] at h
      split_ifs at h with hk
      · obtain ⟨p, hp⟩ := hall (k, v) (by simp)
        dsimp only at hp
        injection h with h2
        exact ⟨p, by rw [← h2]; exact hp⟩
      · exact dictLookup_all_chan rest tag e (fun x hx => hall x (by simp [hx])) h

/-- In a frame record's dictionary, every tag with the `Channel_`
prefix holds a channel sub-dictionary: the seven scalar keys do not
start with `Channel_` (in particular `Channels` does not — its eighth
character is `s`, not `_`), and the appended keys all hold `chan`
entries. -/
theorem dictLookup_chan_of_isChannelTag (f : FrameRec) (tag : String) (e : Entry)
    (hc : isChannelTag tag = true)
    (hl : dictLookup (FrameRec.dict f) tag = some e) :
    ∃ p, e = Entry.chan p := by
  rw [FrameRec.dict, dictLookup_append] at hl
  cases hs : dictLookup [("Fs", Entry.num f.fsVal), ("n", Entry.num f.nVal),
      ("Channels", Entry.num f.channelsVal), ("bits", Entry.num f.bitsVal),
      ("Time", Entry.txt f.timeVal), ("Date", Entry.txt f.dateVal),
      ("Frame", Entry.num f.frameVal)] tag with
  | some v =>
      exfalso
      simp only [dictLookup] at hs
      split_ifs at hs with h1 h2 h3 h4 h5 h6 h7 <;>
        first
          | (subst h1; exact absurd hc (by decide))
          | (subst h2; exact absurd hc (by decide))
          | (subst h3; exact absurd hc (by decide))
          | (subst h4; exact absurd hc (by decide))
          | (subst h5; exact absurd hc (by decide))
          | (subst h6; exact absurd hc (by decide))
          | (subst h7; exact absurd hc (by decide))
  | none =>
      rw [hs] at hl
      dsimp only at hl
      refine dictLookup_all_chan _ tag e ?_ hl
      intro x hx
      simp only [List.mem_map] at hx
      obtain ⟨p, hp, he⟩ := hx
      exact ⟨p.2, by rw [← he]⟩

/-! ## Encoder state (C2) -/

/-- Setting a child's text twice keeps only the second value. -/
theorem processChild_comp (p q : List ℕ) (c : Elem2) :
    processChild q (processChild p c) = processChild q c := by
  by_cases hc : c.tag = "Payload" <;> simp [processChild, chanSub, hc]

/-- A level-1 node that survives the encoding pass keeps its tag, and
its tag resolved in the record. -/
theorem processLevel1_some (d : List (String × Entry)) (a e : Elem1)
    (h : processLevel1 d a = some e) :
    e.tag = a.tag ∧ ∃ v, dictLookup d a.tag = some v := by
  cases hl : dictLookup d a.tag with
  | none => simp [processLevel1, hl] at h
  | some v =>
      refine ⟨?_, v, rfl⟩
      simp only [processLevel1, hl] at h
      split_ifs at h with hc
      · cases v with
        | chan p =>
            injection h with h2
            rw [← h2]
        | num k =>
            injection h with h2
            rw [← h2]
        | txt s =>
            injection h with h2
            rw [← h2]
      · injection h with h2
        rw [← h2]

/-- The encoding of a level-1 node whose tag resolves to a channel
sub-dictionary. -/
theorem processLevel1_eq_chan (d : List (String × Entry)) (e1 : Elem1) (p : List ℕ)
    (hl : dictLookup d e1.tag = some (Entry.chan p)) (hc : isChannelTag e1.tag = true) :
    processLevel1 d e1 = some ⟨e1.tag, e1.text, e1.children.map (processChild p)⟩ := by
  simp [processLevel1, hl, hc]

/-- The encoding of a level-1 node whose tag resolves outside the
channel branch. -/
theorem processLevel1_eq_scalar (d : List (String × Entry)) (e1 : Elem1) (v : Entry)
    (hl : dictLookup d e1.tag = some v) (hc : isChannelTag e1.tag = false) :
    processLevel1 d e1 = some ⟨e1.tag, some (convertTop e1.tag v), e1.children⟩ := by
  simp [processLevel1, hl, hc]

/-- Encoding a frame `g` against a template already mutated by a frame
`f` of the same channel count gives the same document (and template
state) as encoding `g` against the original template. -/
theorem processLevel1_comp (f g : FrameRec) (h : f.payloads.length = g.payloads.length)
    (e1 : Elem1) :
    (processLevel1 (FrameRec.dict f) e1).bind (processLevel1 (FrameRec.dict g)) =
      processLevel1 (FrameRec.dict g) e1 := by
  cases hg : dictLookup (FrameRec.dict g) e1.tag with
  | none =>
      have hf : dictLookup (FrameRec.dict f) e1.tag = none :=
        (dictLookup_none_iff_of_same_keys _ _ (dict_keys_of_length f g h) _).mpr hg
      simp [processLevel1, hf, hg]
  | some eg =>
      have hf : ∃ ef, dictLookup (FrameRec.dict f) e1.tag = some ef := by
        cases hf2 : dictLookup (FrameRec.dict f) e1.tag with
        | none =>
            have := (dictLookup_none_iff_of_same_keys _ _ (dict_keys_of_length f g h) _).mp hf2
            rw [this] at hg
            exact absurd hg (by simp)
        | some ef => exact ⟨ef, rfl⟩
      obtain ⟨ef, hf⟩ := hf
      cases hc : isChannelTag e1.tag with
      | true =>
          obtain ⟨pf, hpf⟩ := dictLookup_chan_of_isChannelTag f _ _ hc hf
          obtain ⟨pg, hpg⟩ := dictLookup_chan_of_isChannelTag g _ _ hc hg
          subst hpf
          subst hpg
          rw [processLevel1_eq_chan _ _ _ hf hc, Option.some_bind,
            processLevel1_eq_chan _ _ _ hg hc,
            processLevel1_eq_chan (FrameRec.dict g)
              ⟨e1.tag, e1.text, e1.children.map (processChild pf)⟩ pg hg hc]
          simp only [Option.some.injEq, List.map_map]
          have hcc : (processChild pg ∘ processChild pf) = processChild pg :=
            funext fun c => processChild_comp pf pg c
          rw [hcc]
      | false =>
          rw [processLevel1_eq_scalar _ _ _ hf hc, Option.some_bind,
            processLevel1_eq_scalar _ _ _ hg hc,
            processLevel1_eq_scalar (FrameRec.dict g)
              ⟨e1.tag, some (convertTop e1.tag ef), e1.children⟩ eg hg hc]

/-- A template with a declared `Channel_5` block, as in the spec's
omission scenario. -/
def tplC2 : XMLTree := ⟨"OpenPMU", [⟨"Channel_5", none, [⟨"Payload", none⟩]⟩]⟩

/-- A two-channel frame record. -/
def frameC2 : FrameRec :=
  ⟨12800, 128, 2, 16, "00:00:00.000", "2021-01-01", 0, [[0, 1], [2, 3]]⟩

/-- A second two-channel frame record with different field values. -/
def frameC2b : FrameRec :=
  ⟨12800, 128, 2, 16, "00:00:00.010", "2021-01-01", 1, [[4, 5], [6, 7]]⟩

/-- C2 (counterexample): `toXML` does not leave the schema template
unchanged: encoding a two-channel frame against a template declaring
`Channel_5` removes the `Channel_5` node from the template itself
(`level0.remove(level1)` mutates `self.xmlTemplate` in place), so the
template after the call differs from the template before it. -/
theorem toXML_mutates_template : toXML tplC2 (FrameRec.dict frameC2) ≠ tplC2 := by decide

/-- C2 (amended): the frame encoder is not pure — it mutates the schema
template in place (removing nodes whose tags the record lacks and
overwriting node texts) — but it is stateless in effect across the
frames a run produces: for frame records of equal channel count (the
run's records all have the configured channel count, and their scalar
field set is fixed), encoding against the template state left by a
previous frame yields exactly the document that encoding against the
original template yields.  With `g = f` this gives that encoding the
same record twice produces the same bytes. -/
theorem toXML_stateless_for_constant_shape (tpl : XMLTree) (f g : FrameRec)
    (h : f.payloads.length = g.payloads.length) :
    toXML (toXML tpl (FrameRec.dict f)) (FrameRec.dict g) =
      toXML tpl (FrameRec.dict g) := by
  simp only [toXML, List.filterMap_filterMap]
  have hfg : (fun x => (processLevel1 (FrameRec.dict f) x).bind
      (processLevel1 (FrameRec.dict g))) = processLevel1 (FrameRec.dict g) :=
    funext fun e1 => processLevel1_comp f g h e1
  rw [hfg]

/-- C2 (witness): two concrete two-channel frames against the modelled
schema template. -/
theorem toXML_stateless_witness :
    frameC2.payloads.length = frameC2b.payloads.length ∧
      toXML (toXML openPMU_SV (FrameRec.dict frameC2)) (FrameRec.dict frameC2b) =
        toXML openPMU_SV (FrameRec.dict frameC2b) :=
  ⟨by decide, toXML_stateless_for_constant_shape openPMU_SV frameC2 frameC2b (by decide)⟩

/-! ## Schema omission (C6) -/

/-- C6: a field declared in the schema template but absent from the
frame record's field set is entirely absent from the emitted document —
the node is removed, not emitted empty — and the encoding is total, so
no error is raised. -/
theorem absent_fields_omitted (tpl : XMLTree) (f : FrameRec) (tag : String)
    (h : dictLookup (FrameRec.dict f) tag = none) :
    ∀ e ∈ (toXML tpl (FrameRec.dict f)).level1, e.tag ≠ tag := by
  intro e he heq
  simp only [toXML, List.mem_filterMap] at he
  obtain ⟨a, _, hpa⟩ := he
  obtain ⟨htag, v, hv⟩ := processLevel1_some _ a e hpa
  rw [htag] at heq
  rw [heq] at hv
  rw [h] at hv
  exact Option.noConfusion hv

/-- C6 (witness): the spec's scenario — a schema declaring `Channel_5`,
a stream configured with two channels: `Channel_5` is not a key of the
frame dictionary and no node of the emitted document carries it. -/
theorem absent_fields_omitted_witness :
    dictLookup (FrameRec.dict frameC2) "Channel_5" = none ∧
      ∀ e ∈ (toXML openPMU_SV (FrameRec.dict frameC2)).level1, e.tag ≠ "Channel_5" :=
  ⟨by decide, absent_fields_omitted openPMU_SV frameC2 "Channel_5" (by decide)⟩

/-! ## Base64 round trip -/

/-- The base64 digit of a 6-bit value decodes back to it. -/
theorem b64CharVal_b64Char : ∀ k < 64, b64CharVal (b64Char k) = k := by decide

/-- No base64 digit is the padding character. -/
theorem b64Char_ne_pad (k : ℕ) : b64Char k ≠ '=' := by
  rcases Nat.lt_or_ge k 64 with h | h
  · exact (by decide : ∀ m < 64, b64Char m ≠ '=') k h
  · rw [b64Char, List.getD_eq_default]
    · decide
    · have hlen : b64Alphabet.length = 64 := by decide
      omega

/-- Standard base64 decoding inverts encoding on byte sequences. -/
theorem b64_roundtrip : ∀ bs : List ℕ, (∀ x ∈ bs, x < 256) →
    b64decodeList (b64encodeList bs) = bs
  | [], _ => rfl
  | [a], h => by
      have ha : a < 256 := h a (by simp)
      simp only [b64encodeList, b64decodeList]
      rw [if_pos (by simp)]
      rw [b64CharVal_b64Char _ (by omega), b64CharVal_b64Char _ (by omega)]
      have hv : a / 4 * 4 + a % 4 * 16 / 16 = a := by omega
      rw [hv]
  | [a, b], h => by
      have ha : a < 256 := h a (by simp)
      have hb : b < 256 := h b (by simp)
      simp only [b64encodeList, b64decodeList]
      rw [if_neg (fun hh => b64Char_ne_pad _ hh.1), if_pos (by simp)]
      rw [b64CharVal_b64Char _ (by omega), b64CharVal_b64Char _ (by omega),
        b64CharVal_b64Char _ (by omega)]
      have e1 : a / 4 * 4 + (a % 4 * 16 + b / 16) / 16 = a := by omega
      have e2 : (a % 4 * 16 + b / 16) % 16 * 16 + b % 16 * 4 / 4 = b := by omega
      rw [e1, e2]
  | a :: b :: c :: rest, h => by
      have ha : a < 256 := h a (by simp)
      have hb : b < 256 := h b (by simp)
      have hc : c < 256 := h c (by simp)
      have ih := b64_roundtrip rest (fun x hx => h x (by simp [hx]))
      simp only [b64encodeList, b64decodeList]
      rw [if_neg (fun hh => b64Char_ne_pad _ hh.1),
        if_neg (fun hh => b64Char_ne_pad _ hh.1)]
      rw [b64CharVal_b64Char _ (by omega), b64CharVal_b64Char _ (by omega),
        b64CharVal_b64Char _ (by omega), b64CharVal_b64Char _ (by omega), ih]
      have e1 : a / 4 * 4 + (a % 4 * 16 + b / 16) / 16 = a := by omega
      have e2 : (a % 4 * 16 + b / 16) % 16 * 16 + (b % 16 * 4 + c / 64) / 4 = b := by omega
      have e3 : (b % 16 * 4 + c / 64) % 4 * 64 + c % 64 = c := by omega
      rw [e1, e2, e3]

/-- String-level base64 round trip. -/
theorem b64decode_b64encode (bs : List ℕ) (h : ∀ x ∈ bs, x < 256) :
    b64decode (b64encode bs) = bs := by
  rw [b64encode, b64decode]
  exact b64_roundtrip bs h

/-- Both bytes of a big-endian 16-bit encoding are bytes. -/
theorem int16BE_lt (z : ℤ) : ∀ x ∈ int16BE z, x < 256 := by
  have h1 : 0 ≤ z % 65536 := Int.emod_nonneg z (by norm_num)
  have h2 : z % 65536 < 65536 := Int.emod_lt_of_pos z (by norm_num)
  have h : (z % 65536).toNat < 65536 := by omega
  intro x hx
  simp only [int16BE, List.mem_cons, List.not_mem_nil, or_false] at hx
  rcases hx with hx | hx <;> omega

/-- Every element of a channel's byte buffer is a byte. -/
theorem bigEndianBytes_lt (s : List ℤ) : ∀ x ∈ bigEndianBytes s, x < 256 := by
  intro x hx
  simp only [bigEndianBytes, List.mem_flatten, List.mem_map] at hx
  obtain ⟨l, ⟨z, hz, rfl⟩, hxl⟩ := hx
  exact int16BE_lt z x hxl

/-- A channel's byte buffer holds two bytes per sample. -/
theorem bigEndianBytes_length (s : List ℤ) :
    (bigEndianBytes s).length = 2 * s.length := by
  induction s with
  | nil => rfl
  | cons z rest ih =>
      simp only [bigEndianBytes, List.map_cons, List.flatten_cons] at *
      simp [int16BE, ih]
      omega

/-! ## Wire-format round trip (C7) -/

/-- The frame record a cycle builds from two channel rows of samples
(the two-channel default configuration). -/
def frameOf2 (s0 s1 : List ℤ) (nowS : ℕ) (nowD : String) (fr : ℕ) : FrameRec :=
  mkFrameRec 2 nowS nowD fr [bigEndianBytes s0, bigEndianBytes s1]

/-- The document a cycle emits for a two-channel frame against the
modelled schema: every declared scalar field carries the decimal string
of its configured value, channels 0 and 1 carry base64 payloads, and
the declared `Channel_2` … `Channel_5` blocks are removed. -/
theorem toXML_openPMU_SV_frameOf2 (s0 s1 : List ℤ) (nowS : ℕ) (nowD : String) (fr : ℕ) :
    toXML openPMU_SV (FrameRec.dict (frameOf2 s0 s1 nowS nowD fr)) =
      ⟨"OpenPMU",
        [⟨"Frame", some (toString fr), []⟩,
         ⟨"Time", some (timeField nowS fr), []⟩,
         ⟨"Date", some nowD, []⟩,
         ⟨"Fs", some "12800", []⟩,
         ⟨"n", some "128", []⟩,
         ⟨"Channels", some "2", []⟩,
         ⟨"bits", some "16", []⟩,
         ⟨"Channel_0", none, [⟨"Payload", some (b64encode (bigEndianBytes s0))⟩]⟩,
         ⟨"Channel_1", none, [⟨"Payload", some (b64encode (bigEndianBytes s1))⟩]⟩]⟩ := by
  have hr6 : List.range 6 = [0, 1, 2, 3, 4, 5] := rfl
  have henum : (frameOf2 s0 s1 nowS nowD fr).payloads.enum
      = [(0, bigEndianBytes s0), (1, bigEndianBytes s1)] := rfl
  rw [toXML, openPMU_SV, FrameRec.dict, henum, hr6]
  simp +decide [frameOf2, mkFrameRec, processLevel1, dictLookup, isChannelTag,
    convertTop, processChild, chanSub, Fs, bits]

/-- The emitted wire document for a two-channel frame. -/
def docW (s0 s1 : List ℤ) (nowS : ℕ) (nowD : String) (fr : ℕ) : XMLTree :=
  toXML openPMU_SV (FrameRec.dict (frameOf2 s0 s1 nowS nowD fr))

/-- C7: parsing the emitted wire document recovers `Fs`, `n`,
`Channels` and `bits` as the decimal strings of the configured values,
and each `Channel_i` `Payload` is base64 text whose decoding equals,
byte for byte, that channel's big-endian 16-bit sample buffer of
`n = 128` samples (`2n = 256` bytes). -/
theorem wire_roundtrip (s0 s1 : List ℤ) (h0 : s0.length = 128) (h1 : s1.length = 128)
    (nowS : ℕ) (nowD : String) (fr : ℕ) :
    ((findTag (docW s0 s1 nowS nowD fr) "Fs").bind fun e => e.text) = some "12800" ∧
    ((findTag (docW s0 s1 nowS nowD fr) "n").bind fun e => e.text) = some "128" ∧
    ((findTag (docW s0 s1 nowS nowD fr) "Channels").bind fun e => e.text) = some "2" ∧
    ((findTag (docW s0 s1 nowS nowD fr) "bits").bind fun e => e.text) = some "16" ∧
    ((findTag (docW s0 s1 nowS nowD fr) "Channel_0").bind fun e =>
        (findSub e "Payload").bind fun c => c.text) =
      some (b64encode (bigEndianBytes s0)) ∧
    b64decode (b64encode (bigEndianBytes s0)) = bigEndianBytes s0 ∧
    (bigEndianBytes s0).length = 2 * 128 ∧
    ((findTag (docW s0 s1 nowS nowD fr) "Channel_1").bind fun e =>
        (findSub e "Payload").bind fun c => c.text) =
      some (b64encode (bigEndianBytes s1)) ∧
    b64decode (b64encode (bigEndianBytes s1)) = bigEndianBytes s1 ∧
    (bigEndianBytes s1).length = 2 * 128 := by
  rw [docW, toXML_openPMU_SV_frameOf2]
  refine ⟨?_, ?_, ?_, ?_, ?_,
    b64decode_b64encode _ (bigEndianBytes_lt s0), by rw [bigEndianBytes_length, h0], ?_,
    b64decode_b64encode _ (bigEndianBytes_lt s1), by rw [bigEndianBytes_length, h1]⟩ <;>
    simp +decide [findTag, findSub]

/-- A concrete first channel: 128 samples of value 100. -/
def s0W : List ℤ := List.replicate 128 100

/-- A concrete second channel: 128 samples of value -100. -/
def s1W : List ℤ := List.replicate 128 (-100)

/-- C7 (witness): the round trip at a concrete two-channel frame. -/
theorem wire_roundtrip_witness :
    s0W.length = 128 ∧ s1W.length = 128 ∧
      (((findTag (docW s0W s1W 0 "2021-01-01" 0) "Fs").bind fun e => e.text) = some "12800" ∧
      ((findTag (docW s0W s1W 0 "2021-01-01" 0) "n").bind fun e => e.text) = some "128" ∧
      ((findTag (docW s0W s1W 0 "2021-01-01" 0) "Channels").bind fun e => e.text) = some "2" ∧
      ((findTag (docW s0W s1W 0 "2021-01-01" 0) "bits").bind fun e => e.text) = some "16" ∧
      ((findTag (docW s0W s1W 0 "2021-01-01" 0) "Channel_0").bind fun e =>
          (findSub e "Payload").bind fun c => c.text) =
        some (b64encode (bigEndianBytes s0W)) ∧
      b64decode (b64encode (bigEndianBytes s0W)) = bigEndianBytes s0W ∧
      (bigEndianBytes s0W).length = 2 * 128 ∧
      ((findTag (docW s0W s1W 0 "2021-01-01" 0) "Channel_1").bind fun e =>
          (findSub e "Payload").bind fun c => c.text) =
        some (b64encode (bigEndianBytes s1W)) ∧
      b64decode (b64encode (bigEndianBytes s1W)) = bigEndianBytes s1W ∧
      (bigEndianBytes s1W).length = 2 * 128) :=
  ⟨by simp [s0W], by simp [s1W],
    wire_roundtrip s0W s1W (by simp [s0W]) (by simp [s1W]) 0 "2021-01-01" 0⟩

end WaveMU
